import Mathlib

/-!
Verification of the JSON:API data provider of `test-admin`
(`src/jsonApiDataProvider.ts`, with a second revision of the same module
among the unnamed sources).

The adapter is a stateless translator between react-admin's CRUD calls and
a JSON:API backend.  We embed the JavaScript values it manipulates as an
inductive `Value` type (JS objects are insertion-ordered key/value lists in
which a later binding of a key overrides an earlier one, exactly as in an
object literal built with spreads), and embed each function of the module
as a Lean definition.  The network transport (`fetch` plus
`response.json()`) is modelled by a `FetchOutcome` oracle value: either a
thrown transport/parse error or an `HttpResponse` carrying the HTTP status
and the parsed JSON body.
-/

/-- A JavaScript runtime value, as manipulated by the adapter.  `undef` is
JavaScript's `undefined` (also the result of reading an absent property);
numbers are modelled as integers (the adapter only ever handles ids,
page numbers and counts). -/
inductive Value where
  | undef : Value
  | vnull : Value
  | vbool (b : Bool) : Value
  | vnum (n : Int) : Value
  | vstr (s : String) : Value
  | vobj (fields : List (String × Value)) : Value
  | varr (elems : List Value) : Value

/-- A JavaScript object: an ordered list of key/value bindings.  A later
binding of the same key overrides an earlier one (object-literal spread
semantics); lists built by the adapter itself never repeat a key. -/
abbrev JsObj := List (String × Value)

/-- JavaScript truthiness of a value. -/
def Value.truthy : Value → Bool
  | .undef => false
  | .vnull => false
  | .vbool b => b
  | .vnum n => n != 0
  | .vstr s => s != ""
  | .vobj _ => true
  | .varr _ => true

mutual

/-- JavaScript `String(v)` / `v.toString()` for the values the adapter
stringifies (only ever applied to non-null, non-undefined values in the
source; the `undefined`/`null` strings match `String(v)`). -/
def jsToString : Value → String
  | .undef => "undefined"
  | .vnull => "null"
  | .vbool b => if b then "true" else "false"
  | .vnum n => toString n
  | .vstr s => s
  | .vobj _ => "[object Object]"
  | .varr l => jsArrayToString l

/-- `Array.prototype.toString`: elements joined with `","`. -/
def jsArrayToString : List Value → String
  | [] => ""
  | [v] => jsElemToString v
  | v :: w :: rest => jsElemToString v ++ "," ++ jsArrayToString (w :: rest)

/-- Stringification of a single array element inside a join: `undefined`
and `null` become the empty string. -/
def jsElemToString : Value → String
  | .undef => ""
  | .vnull => ""
  | .vbool b => if b then "true" else "false"
  | .vnum n => toString n
  | .vstr s => s
  | .vobj _ => "[object Object]"
  | .varr l => jsArrayToString l

end

/-- Property read on a JavaScript object: the value of the last binding of
the key, or `undefined` when the key is absent. -/
def objGet (o : JsObj) (k : String) : Value :=
  o.foldl (fun acc kv => if kv.1 = k then kv.2 else acc) Value.undef

/-- Whether an object has an own property with the given key. -/
def keyIn (o : JsObj) (k : String) : Bool :=
  o.any (fun kv => kv.1 = k)

/-- Property read on an arbitrary (non-null, non-undefined) value:
objects look the key up, primitives yield `undefined`. -/
def jsGet (v : Value) (k : String) : Value :=
  match v with
  | .vobj fields => objGet fields k
  | _ => (.undef)

/-- Optional-chained property read `v?.k`: `undefined` when the receiver
is `null`/`undefined`, an ordinary property read otherwise. -/
def optChain (v : Value) (k : String) : Value :=
  match v with
  | .undef => .undef
  | .vnull => .undef
  | w => jsGet w k

/-- Optional-chained index read `v?.[0]`. -/
def indexZero (v : Value) : Value :=
  match v with
  | .undef => .undef
  | .vnull => .undef
  | .varr [] => .undef
  | .varr (e :: _) => e
  | .vstr s => if s.isEmpty then .undef else .vstr (s.take 1)
  | .vobj fields => objGet fields "0"
  | _ => (.undef)

/-- Spreading a value into an object literal: an object contributes its
bindings, an array its indexed elements, a string its indexed characters,
`null`/`undefined` and other primitives contribute nothing. -/
def spreadVal : Value → JsObj
  | .vobj fields => fields
  | .varr elems => (elems.enum.map fun ei => (toString ei.1, ei.2))
  | .vstr s => (s.data.enum.map fun ci => (toString ci.1, Value.vstr (String.mk [ci.2])))
  | _ => []

/-- JavaScript `x || y`. -/
def jsOr (a b : Value) : Value := if a.truthy then a else b

/-- JavaScript `Array.isArray`. -/
def isArrayValue : Value → Bool
  | .varr _ => true
  | _ => false

/-! ### Lemmas about object reads -/

theorem keyIn_append (o₁ o₂ : JsObj) (k : String) :
    keyIn (o₁ ++ o₂) k = (keyIn o₁ k || keyIn o₂ k) := by
  simp [keyIn, List.any_append]

theorem keyIn_cons (kv : String × Value) (t : JsObj) (k : String) :
    keyIn (kv :: t) k = (decide (kv.1 = k) || keyIn t k) := by
  simp [keyIn]

theorem objGet_foldl (o : JsObj) (k : String) (a : Value) :
    o.foldl (fun acc kv => if kv.1 = k then kv.2 else acc) a
      = if keyIn o k then objGet o k else a := by
  induction o generalizing a with
  | nil => simp [keyIn, objGet]
  | cons kv t ih =>
    have hobj : objGet (kv :: t) k
        = if keyIn t k then objGet t k else if kv.1 = k then kv.2 else Value.undef := by
      show List.foldl _ _ (kv :: t) = _
      rw [List.foldl_cons, ih]
    rw [List.foldl_cons, ih, hobj]
    by_cases hk : keyIn t k
    · have h1 : keyIn (kv :: t) k = true := by
        rw [keyIn_cons, hk, Bool.or_true]
      simp [hk, h1]
    · by_cases he : kv.1 = k
      · have h1 : keyIn (kv :: t) k = true := by
          rw [keyIn_cons, decide_eq_true he, Bool.true_or]
        simp [hk, he, h1]
      · have h1 : keyIn (kv :: t) k = false := by
          rw [keyIn_cons, decide_eq_false he, Bool.false_or]
          exact Bool.eq_false_iff.mpr hk
        simp [hk, he, h1]

theorem objGet_append (o₁ o₂ : JsObj) (k : String) :
    objGet (o₁ ++ o₂) k = if keyIn o₂ k then objGet o₂ k else objGet o₁ k := by
  simp only [objGet, List.foldl_append]
  exact objGet_foldl o₂ k _

theorem objGet_cons (kv : String × Value) (t : JsObj) (k : String) :
    objGet (kv :: t) k
      = if keyIn t k then objGet t k else if kv.1 = k then kv.2 else .undef := by
  show List.foldl _ _ (kv :: t) = _
  rw [List.foldl_cons, objGet_foldl]

theorem objGet_of_not_keyIn (o : JsObj) (k : String) (h : keyIn o k = false) :
    objGet o k = .undef := by
  have := objGet_foldl o k .undef
  rw [h] at this
  simpa [objGet] using this

theorem keyIn_filter_drop (o : JsObj) (p : String × Value → Bool) (k : String)
    (h : ∀ v, p (k, v) = false) : keyIn (o.filter p) k = false := by
  induction o with
  | nil => simp [keyIn]
  | cons kv t ih =>
    by_cases hp : p kv
    · rw [List.filter_cons_of_pos hp, keyIn_cons, ih, Bool.or_false]
      rcases kv with ⟨k', v⟩
      by_cases he : k' = k
      · subst he; rw [h v] at hp; exact absurd hp (by simp)
      · exact decide_eq_false he
    · rw [List.filter_cons_of_neg hp]; exact ih

theorem keyIn_filter_keep (o : JsObj) (p : String × Value → Bool) (k : String)
    (h : ∀ v, p (k, v) = true) : keyIn (o.filter p) k = keyIn o k := by
  induction o with
  | nil => simp
  | cons kv t ih =>
    rcases kv with ⟨k', v⟩
    by_cases he : k' = k
    · subst he
      rw [List.filter_cons_of_pos (h v), keyIn_cons, keyIn_cons, ih]
    · by_cases hp : p (k', v)
      · rw [List.filter_cons_of_pos hp, keyIn_cons, keyIn_cons, ih]
      · rw [List.filter_cons_of_neg hp, ih, keyIn_cons, decide_eq_false he,
          Bool.false_or]

theorem objGet_filter_keep (o : JsObj) (p : String × Value → Bool) (k : String)
    (h : ∀ v, p (k, v) = true) : objGet (o.filter p) k = objGet o k := by
  induction o with
  | nil => simp
  | cons kv t ih =>
    rcases kv with ⟨k', v⟩
    by_cases hp : p (k', v)
    · rw [List.filter_cons_of_pos hp, objGet_cons, objGet_cons, ih,
        keyIn_filter_keep t p k h]
    · have he : k' ≠ k := fun hc => by rw [hc, h v] at hp; exact hp rfl
      rw [List.filter_cons_of_neg hp, ih, objGet_cons]
      by_cases hk : keyIn t k
      · rw [if_pos hk]
      · rw [if_neg hk, if_neg he, objGet_of_not_keyIn t k (Bool.eq_false_iff.mpr hk)]

/-! ### The transport model -/

/-- A thrown JavaScript `Error`, reduced to its message. -/
structure JsError where
  message : String

/-- An HTTP response as seen after `await response.json()` succeeded:
status information plus the parsed JSON body.  The adapter casts the body
to its envelope interfaces, i.e. treats it as an object. -/
structure HttpResponse where
  ok : Bool
  status : Nat
  statusText : String
  body : JsObj

/-- The outcome of one `fetch` + `response.json()` round trip: either a
thrown transport/parse error (network failure or a non-JSON body), or a
response with a parsed body. -/
inductive FetchOutcome where
  | fail (e : JsError)
  | resp (r : HttpResponse)

/-- The synthesized fallback message `"HTTP <status>: <statusText>"`. -/
def syntheticHttpMessage (status : Nat) (statusText : String) : String :=
  "HTTP " ++ toString status ++ ": " ++ statusText

/-- Message of the error thrown by the HTTP client on a non-ok response
(`jsonApiDataProvider.ts` lines 70-75):
`errorResponse.errors?.[0]` then
`error?.detail || error?.title || "HTTP <status>: <statusText>"`. -/
def clientErrorMessage (status : Nat) (statusText : String) (body : JsObj) : String :=
  if (optChain (indexZero (objGet body "errors")) "detail").truthy then
    jsToString (optChain (indexZero (objGet body "errors")) "detail")
  else if (optChain (indexZero (objGet body "errors")) "title").truthy then
    jsToString (optChain (indexZero (objGet body "errors")) "title")
  else syntheticHttpMessage status statusText

/-- `createJsonApiHttpClient`: parse the body, throw a normalized error on
a non-ok status, return the parsed envelope otherwise.  Transport and
parse failures are thrown before the status check. -/
def jsonApiHttpClient : FetchOutcome → Except JsError JsObj
  | .fail e => .error e
  | .resp r =>
    if r.ok then .ok r.body
    else .error ⟨clientErrorMessage r.status r.statusText r.body⟩

/-- Whether an `Except` result is a thrown error. -/
def isError : Except JsError α → Bool
  | .error _ => true
  | .ok _ => false

/-! ### Resource transformation (`transformJsonApiResource` /
`transformToJsonApiResource`) -/

/-- Body of `transformJsonApiResource`:
`{ id: resource.id, ...resource.attributes,
   ...(resource.relationships && { relationships: ... }),
   ...(resource.meta && { meta: ... }) }`. -/
def flattenResource (resource : Value) : JsObj :=
  ("id", jsGet resource "id") :: spreadVal (jsGet resource "attributes")
    ++ (if (jsGet resource "relationships").truthy
        then [("relationships", jsGet resource "relationships")] else [])
    ++ (if (jsGet resource "meta").truthy
        then [("meta", jsGet resource "meta")] else [])

/-- `transformJsonApiResource` as invoked on a parsed JSON value: property
access on `null`/`undefined` throws a `TypeError`, any other value is
flattened. -/
def transformJsonApiResource : Value → Except JsError JsObj
  | .undef => .error ⟨"TypeError: Cannot read properties of undefined"⟩
  | .vnull => .error ⟨"TypeError: Cannot read properties of null"⟩
  | v => .ok (flattenResource v)

/-- Predicate of the `attributes` filter in `transformToJsonApiResource`:
`key !== 'id' && key !== 'relationships' && key !== 'meta'`. -/
def notReservedKey (kv : String × Value) : Bool :=
  kv.1 != "id" && kv.1 != "relationships" && kv.1 != "meta"

/-- The `...(id && { id })` part of the built resource: the guard drops an
absent (`undefined`) or empty (falsy) id string. -/
def idPart : Option String → JsObj
  | some s => if s != "" then [("id", Value.vstr s)] else []
  | none => []

/-- The inner `data` object built by `transformToJsonApiResource`:
`{ type, ...(id && { id }), attributes: fromEntries(entries(data).filter(...)),
   ...(data.relationships && { relationships: ... }),
   ...(data.meta && { meta: ... }) }`.
The `id` argument models the optional `id?: string` parameter. -/
def toJsonApiInner (type_ : String) (data : JsObj) (id : Option String) : JsObj :=
  ("type", Value.vstr type_)
    :: idPart id
    ++ [("attributes", Value.vobj (data.filter notReservedKey))]
    ++ (if (objGet data "relationships").truthy
        then [("relationships", objGet data "relationships")] else [])
    ++ (if (objGet data "meta").truthy
        then [("meta", objGet data "meta")] else [])

/-- `transformToJsonApiResource`: the request body `{ data: ... }`. -/
def transformToJsonApiResource (type_ : String) (data : JsObj) (id : Option String) :
    JsObj :=
  [("data", Value.vobj (toJsonApiInner type_ data id))]

/-! ### Query building (`getList` lines 109-128, `getManyReference`
lines 199-221) -/

/-- `order === 'ASC' ? field : `-${field}``. -/
def sortFieldParam (field order : String) : String :=
  if order == "ASC" then field else "-" ++ field

/-- The two pagination parameters appended first. -/
def pageParams (page perPage : Int) : List (String × String) :=
  [("page[number]", toString page), ("page[size]", toString perPage)]

/-- Whether a filter entry survives
`value !== undefined && value !== null && value !== ''`. -/
def keptFilterValue : Value → Bool
  | .undef => false
  | .vnull => false
  | .vstr s => s != ""
  | _ => true

/-- The `filter[<key>]=<value.toString()>` parameters appended for the
surviving filter entries, in object-entry order. -/
def filterQueryParams (filters : JsObj) : List (String × String) :=
  filters.filterMap fun kv =>
    if keptFilterValue kv.2 then some ("filter[" ++ kv.1 ++ "]", jsToString kv.2)
    else none

/-- The full parameter list `getList` appends to its `URLSearchParams`:
pagination, then sort, then filters. -/
def getListQuery (page perPage : Int) (field order : String) (filters : JsObj) :
    List (String × String) :=
  pageParams page perPage ++ [("sort", sortFieldParam field order)]
    ++ filterQueryParams filters

/-- The full parameter list `getManyReference` appends: pagination, then
sort, then the target filter `filter[<target>] = id.toString()` (appended
unconditionally, before the extra-filter loop), then the extra filter
parameters. -/
def getManyReferenceQuery (page perPage : Int) (field order : String)
    (target : String) (id : Value) (filters : JsObj) : List (String × String) :=
  pageParams page perPage ++ [("sort", sortFieldParam field order)]
    ++ [("filter[" ++ target ++ "]", jsToString id)]
    ++ filterQueryParams filters

/-! ### Response handling of the CRUD operations -/

/-- The array coercion in the list-shaped reads:
`Array.isArray(json.data) ? json.data : [json.data]`. -/
def coerceDataArray : Value → List Value
  | .varr l => l
  | v => [v]

/-- Result shape of `getList`/`getManyReference`: records plus the
computed `total` (a JavaScript value: the code stores whatever
`meta.total || meta.count || data.length` evaluates to). -/
structure GetListResult where
  data : List JsObj
  total : Value

/-- The `try` body of `getList` after the client returned an envelope:
coerce `data` to an array, transform every resource (a `TypeError` from a
missing `data` propagates to the `catch`), and compute
`json.meta?.total || json.meta?.count || data.length`. -/
def listTransformBody (json : JsObj) : Except JsError GetListResult :=
  match (coerceDataArray (objGet json "data")).mapM transformJsonApiResource with
  | .error e => .error e
  | .ok recs =>
    .ok ⟨recs,
      jsOr (optChain (objGet json "meta") "total")
        (jsOr (optChain (objGet json "meta") "count")
          (.vnum (coerceDataArray (objGet json "data")).length))⟩

/-- `getList` (lines 109-150): on any thrown error — transport failure,
non-ok status, parse failure, or a failure while transforming — the
`catch` returns `{ data: [], total: 0 }`. -/
def getListCore (outcome : FetchOutcome) : GetListResult :=
  match jsonApiHttpClient outcome with
  | .error _ => ⟨[], .vnum 0⟩
  | .ok json =>
    match listTransformBody json with
    | .error _ => ⟨[], .vnum 0⟩
    | .ok res => res

/-- `getOne` (lines 153-170): errors are re-thrown; an array `data` is a
contract violation; an absent `data` makes the transform throw. -/
def getOneCore (outcome : FetchOutcome) : Except JsError JsObj :=
  match jsonApiHttpClient outcome with
  | .error e => .error e
  | .ok json =>
    if isArrayValue (objGet json "data") then
      .error ⟨"Expected single resource, got array"⟩
    else transformJsonApiResource (objGet json "data")

/-- `getMany` (lines 173-196): same array coercion as `getList`; the
`catch` returns `{ data: [] }` (no total). -/
def getManyCore (outcome : FetchOutcome) : List JsObj :=
  match jsonApiHttpClient outcome with
  | .error _ => []
  | .ok json =>
    match (coerceDataArray (objGet json "data")).mapM transformJsonApiResource with
    | .error _ => []
    | .ok recs => recs

/-- `getManyReference` (lines 199-243): response handling identical to
`getList`. -/
def getManyReferenceCore (outcome : FetchOutcome) : GetListResult :=
  match jsonApiHttpClient outcome with
  | .error _ => ⟨[], .vnum 0⟩
  | .ok json =>
    match listTransformBody json with
    | .error _ => ⟨[], .vnum 0⟩
    | .ok res => res

/-! ### `updateMany` (lines 294-312) -/

/-- One outbound request: url, method and JSON body. -/
structure RequestInfo where
  url : String
  method : String
  body : JsObj

/-- The PATCH request `updateMany` issues for one id:
url `${apiUrl}/${resource}/${id}` and body
`transformToJsonApiResource(resource, params.data, id.toString())`. -/
def updateManyRequest (apiUrl resource_ : String) (data : JsObj) (id : Value) :
    RequestInfo :=
  ⟨apiUrl ++ "/" ++ resource_ ++ "/" ++ jsToString id, "PATCH",
    transformToJsonApiResource resource_ data (some (jsToString id))⟩

/-- `Promise.all`: succeeds with the list of results when every promise
succeeds, fails when any of them fails. -/
def promiseAll : List (Except JsError JsObj) → Except JsError (List JsObj)
  | [] => .ok []
  | r :: rest =>
    match r with
    | .error e => .error e
    | .ok v =>
      match promiseAll rest with
      | .error e => .error e
      | .ok vs => .ok (v :: vs)

/-- `updateMany`: fan out one PATCH per id (the transport oracle answers
each request), join with `Promise.all`, and on success echo the input id
list; a failure of any sub-request propagates (the `catch` re-throws). -/
def updateManyCore (oracle : RequestInfo → FetchOutcome)
    (apiUrl resource_ : String) (ids : List Value) (data : JsObj) :
    Except JsError (List Value) :=
  match promiseAll (ids.map fun id =>
      jsonApiHttpClient (oracle (updateManyRequest apiUrl resource_ data id))) with
  | .error e => .error e
  | .ok _ => .ok ids

/-! ### Helper lemmas about the fan-out join -/

theorem promiseAll_ok_all (l : List (Except JsError JsObj))
    (h : ∀ r ∈ l, isError r = false) : ∃ vs, promiseAll l = .ok vs := by
  induction l with
  | nil => exact ⟨[], rfl⟩
  | cons r rest ih =>
    obtain ⟨vs, hvs⟩ := ih fun x hx => h x (List.mem_cons_of_mem _ hx)
    have hr := h r (List.mem_cons_self _ _)
    cases r with
    | error e => simp [isError] at hr
    | ok v => exact ⟨v :: vs, by simp [promiseAll, hvs]⟩

theorem promiseAll_error_mem (l : List (Except JsError JsObj))
    (r : Except JsError JsObj) (hr : r ∈ l) (he : isError r = true) :
    ∃ e, promiseAll l = .error e := by
  induction l with
  | nil => cases hr
  | cons a rest ih =>
    rcases List.mem_cons.mp hr with h1 | h2
    · subst h1
      cases r with
      | error e => exact ⟨e, rfl⟩
      | ok v => simp [isError] at he
    · cases a with
      | error e => exact ⟨e, rfl⟩
      | ok v =>
        obtain ⟨e, hpe⟩ := ih h2
        exact ⟨e, by simp [promiseAll, hpe]⟩

/-- C3: on success `updateMany` returns exactly the input id list as its
data (it never merges server responses), and if any one of the per-id
requests fails, the whole call fails — no partial-success result is
returned for the remaining ids. -/
theorem updateMany_all_or_nothing (oracle : RequestInfo → FetchOutcome)
    (apiUrl resource_ : String) (ids : List Value) (data : JsObj) :
    ((∀ id ∈ ids,
        isError (jsonApiHttpClient
          (oracle (updateManyRequest apiUrl resource_ data id))) = false) →
      updateManyCore oracle apiUrl resource_ ids data = .ok ids) ∧
    (∀ l, updateManyCore oracle apiUrl resource_ ids data = .ok l → l = ids) ∧
    (∀ id ∈ ids,
      isError (jsonApiHttpClient
        (oracle (updateManyRequest apiUrl resource_ data id))) = true →
      ∃ e, updateManyCore oracle apiUrl resource_ ids data = .error e) := by
  refine ⟨?_, ?_, ?_⟩
  · intro h
    obtain ⟨vs, hvs⟩ := promiseAll_ok_all
      (ids.map fun id =>
        jsonApiHttpClient (oracle (updateManyRequest apiUrl resource_ data id)))
      (by
        intro x hx
        obtain ⟨id, hid, hfx⟩ := List.mem_map.mp hx
        rw [← hfx]
        exact h id hid)
    simp [updateManyCore, hvs]
  · intro l hl
    unfold updateManyCore at hl
    rcases hp : promiseAll (ids.map fun id =>
        jsonApiHttpClient (oracle (updateManyRequest apiUrl resource_ data id)))
      with e | vs
    · rw [hp] at hl; cases hl
    · rw [hp] at hl
      exact (Except.ok.injEq _ _ ▸ hl).symm
  · intro id hid he
    obtain ⟨e, hpe⟩ := promiseAll_error_mem _
      (jsonApiHttpClient (oracle (updateManyRequest apiUrl resource_ data id)))
      (List.mem_map_of_mem
        (fun id => jsonApiHttpClient (oracle (updateManyRequest apiUrl resource_ data id)))
        hid) he
    exact ⟨e, by simp [updateManyCore, hpe]⟩

/-- A transport oracle for the witness: the PATCH for id 2 fails with a
network error, every other request succeeds. -/
def c3Oracle : RequestInfo → FetchOutcome := fun req =>
  if req.url = "http://api/posts/2" then .fail ⟨"network error on id 2"⟩
  else .resp ⟨true, 200, "OK",
    [("data", Value.vobj [("type", .vstr "posts"), ("id", .vstr "1"),
      ("attributes", .vobj [])])]⟩

/-- Witness for C3: `updateMany` over ids `[1,2,3]` where the request for
id 2 fails makes the whole call fail. -/
theorem updateMany_all_or_nothing_witness :
    Value.vnum 2 ∈ [Value.vnum 1, Value.vnum 2, Value.vnum 3] ∧
    isError (jsonApiHttpClient (c3Oracle
      (updateManyRequest "http://api" "posts" [] (Value.vnum 2)))) = true ∧
    ∃ e, updateManyCore c3Oracle "http://api" "posts"
      [Value.vnum 1, Value.vnum 2, Value.vnum 3] [] = .error e := by
  refine ⟨List.mem_cons_of_mem _ (List.mem_cons_self _ _), rfl, ?_⟩
  exact (updateMany_all_or_nothing c3Oracle "http://api" "posts"
      [Value.vnum 1, Value.vnum 2, Value.vnum 3] []).2.2 (Value.vnum 2)
    (List.mem_cons_of_mem _ (List.mem_cons_self _ _)) rfl

/-- C4: whenever the underlying request raises — transport failure or
parse failure (`FetchOutcome.fail`) or a non-success status (the client
throws before returning an envelope) — `getList` resolves to
`{ data: [], total: 0 }` instead of propagating the error. -/
theorem getList_degrades_on_failure :
    (∀ e : JsError, getListCore (.fail e) = ⟨[], .vnum 0⟩) ∧
    (∀ r : HttpResponse, r.ok = false → getListCore (.resp r) = ⟨[], .vnum 0⟩) := by
  constructor
  · intro e; rfl
  · intro r h
    simp [getListCore, jsonApiHttpClient, h]

/-- Witness for C4 at a concrete transport failure and a concrete 500
response. -/
theorem getList_degrades_on_failure_witness :
    getListCore (.fail ⟨"network down"⟩) = ⟨[], .vnum 0⟩ ∧
    (HttpResponse.mk false 500 "Internal Server Error" []).ok = false ∧
    getListCore (.resp ⟨false, 500, "Internal Server Error", []⟩) = ⟨[], .vnum 0⟩ :=
  ⟨getList_degrades_on_failure.1 ⟨"network down"⟩, rfl,
    getList_degrades_on_failure.2 ⟨false, 500, "Internal Server Error", []⟩ rfl⟩

/-- C6: for a success response whose envelope `data` is an array, or whose
`data` is absent, `getOne` raises (an explicit shape error in the first
case, the propagated `TypeError` of flattening `undefined` in the
second); it never returns a record built from such an envelope. -/
theorem getOne_raises_on_bad_shape (r : HttpResponse) (hok : r.ok = true) :
    (objGet r.body "data" = .undef → isError (getOneCore (.resp r)) = true) ∧
    (∀ l, objGet r.body "data" = .varr l → isError (getOneCore (.resp r)) = true) := by
  have hclient : jsonApiHttpClient (.resp r) = .ok r.body := by
    simp [jsonApiHttpClient, hok]
  constructor
  · intro hd
    simp [getOneCore, hclient, hd, isArrayValue, transformJsonApiResource, isError]
  · intro l hd
    simp [getOneCore, hclient, hd, isArrayValue, isError]

/-- Witness for C6: a 200 response with no `data` member, and a 200
response whose `data` is an array, both make `getOne` raise. -/
theorem getOne_raises_on_bad_shape_witness :
    (HttpResponse.mk true 200 "OK" [("meta", Value.vobj [])]).ok = true ∧
    objGet [("meta", Value.vobj [])] "data" = .undef ∧
    isError (getOneCore (.resp ⟨true, 200, "OK", [("meta", Value.vobj [])]⟩)) = true ∧
    objGet [("data", Value.varr [])] "data" = .varr [] ∧
    isError (getOneCore (.resp ⟨true, 200, "OK", [("data", Value.varr [])]⟩)) = true :=
  ⟨rfl, rfl,
    (getOne_raises_on_bad_shape ⟨true, 200, "OK", [("meta", Value.vobj [])]⟩ rfl).1 rfl,
    rfl,
    (getOne_raises_on_bad_shape ⟨true, 200, "OK", [("data", Value.varr [])]⟩ rfl).2 [] rfl⟩

/-- C10: a success envelope whose `data` is a single (non-array) resource
object is wrapped into a one-element record list by `getList`, `getMany`
and `getManyReference` (via `Array.isArray(json.data) ? ... : [json.data]`),
not treated as a shape error. -/
theorem single_resource_wrapped (r : HttpResponse) (fs : JsObj)
    (hok : r.ok = true) (hdata : objGet r.body "data" = .vobj fs) :
    (getListCore (.resp r)).data = [flattenResource (.vobj fs)] ∧
    getManyCore (.resp r) = [flattenResource (.vobj fs)] ∧
    (getManyReferenceCore (.resp r)).data = [flattenResource (.vobj fs)] := by
  have hclient : jsonApiHttpClient (.resp r) = .ok r.body := by
    simp [jsonApiHttpClient, hok]
  have hmap : (coerceDataArray (objGet r.body "data")).mapM transformJsonApiResource
      = .ok [flattenResource (.vobj fs)] := by
    rw [hdata]; rfl
  have hbody : listTransformBody r.body
      = .ok ⟨[flattenResource (.vobj fs)],
          jsOr (optChain (objGet r.body "meta") "total")
            (jsOr (optChain (objGet r.body "meta") "count")
              (.vnum (coerceDataArray (objGet r.body "data")).length))⟩ := by
    unfold listTransformBody
    rw [hmap]
  refine ⟨?_, ?_, ?_⟩
  · simp [getListCore, hclient, hbody]
  · simp only [getManyCore, hclient]
    rw [hmap]
  · simp [getManyReferenceCore, hclient, hbody]

/-- The single wire resource `{ type: "users", id: "1",
attributes: { name: "Hong" } }` used by the C10 witness. -/
def c10Resource : JsObj :=
  [("type", .vstr "users"), ("id", .vstr "1"),
    ("attributes", Value.vobj [("name", Value.vstr "Hong")])]

/-- A 200 response whose envelope `data` is that single resource. -/
def c10Response : HttpResponse :=
  ⟨true, 200, "OK", [("data", Value.vobj c10Resource)]⟩

/-- Witness for C10 at the concrete envelope
`{ data: { type: "users", id: "1", attributes: { name: "Hong" } } }`. -/
theorem single_resource_wrapped_witness :
    c10Response.ok = true ∧
    objGet c10Response.body "data" = .vobj c10Resource ∧
    (getListCore (.resp c10Response)).data = [flattenResource (.vobj c10Resource)] :=
  ⟨rfl, rfl, (single_resource_wrapped c10Response c10Resource rfl rfl).1⟩

/-! ### Sort encoding (C9) -/

theorem string_data_append (a b : String) : (a ++ b).data = a.data ++ b.data := rfl

/-- Number of `-` characters the emitted sort parameter begins with. -/
def leadingDashes (s : String) : Nat :=
  (s.data.takeWhile fun c => c == '-').length

/-- C9: ascending order emits the bare field name; descending order emits
the field name prefixed with exactly one `-` — for a field that does not
itself begin with `-`, the descending parameter begins with exactly one
`-` and the ascending parameter with none; and the `sort` parameter
appears in the query `getList` builds. -/
theorem sort_param_encoding (field order : String) (page perPage : Int)
    (filters : JsObj) :
    sortFieldParam field "ASC" = field ∧
    sortFieldParam field "DESC" = "-" ++ field ∧
    (leadingDashes field = 0 →
      leadingDashes (sortFieldParam field "DESC") = 1 ∧
      leadingDashes (sortFieldParam field "ASC") = 0) ∧
    ("sort", sortFieldParam field order) ∈ getListQuery page perPage field order filters := by
  have hasc : sortFieldParam field "ASC" = field := by
    simp [sortFieldParam]
  have hdesc : sortFieldParam field "DESC" = "-" ++ field := by
    have : (("DESC" : String) == "ASC") = false := rfl
    simp [sortFieldParam, this]
  refine ⟨hasc, hdesc, ?_, ?_⟩
  · intro h0
    constructor
    · rw [hdesc]
      unfold leadingDashes at h0 ⊢
      rw [List.length_eq_zero] at h0
      rw [string_data_append]
      have hm : ("-" : String).data = ['-'] := rfl
      have hdash : (('-' : Char) == '-') = true := rfl
      rw [hm, List.cons_append, List.nil_append]
      simp [List.takeWhile_cons, hdash, h0]
    · rw [hasc]; exact h0
  · unfold getListQuery
    exact List.mem_append_left _ (List.mem_append_right _ (List.mem_singleton.mpr rfl))

/-- Witness for C9 at `field = "title"`. -/
theorem sort_param_encoding_witness :
    leadingDashes "title" = 0 ∧
    sortFieldParam "title" "DESC" = "-title" ∧
    leadingDashes (sortFieldParam "title" "DESC") = 1 :=
  ⟨rfl, ((sort_param_encoding "title" "DESC" 1 10 []).1.symm ▸ rfl : _),
    ((sort_param_encoding "title" "DESC" 1 10 []).2.2.1 rfl).1⟩

/-! ### Error normalization (C5) -/

/-- C5: on a non-success status the client raises.  When the body carries
a non-empty error list, the message is the first entry's `detail` when
that is a non-empty string, else the entry's `title` when that is a
non-empty string, else the synthesized `"HTTP <status>: <statusText>"`;
with no error list at all the synthesized message is used directly.  The
error propagates unchanged through `getOne`. -/
theorem httpClient_error_normalization (r : HttpResponse) (hok : r.ok = false) :
    (∀ e es d, objGet r.body "errors" = .varr (e :: es) →
      optChain e "detail" = .vstr d → d ≠ "" →
      jsonApiHttpClient (.resp r) = .error ⟨d⟩ ∧
        getOneCore (.resp r) = .error ⟨d⟩) ∧
    (∀ e es t, objGet r.body "errors" = .varr (e :: es) →
      (optChain e "detail").truthy = false →
      optChain e "title" = .vstr t → t ≠ "" →
      jsonApiHttpClient (.resp r) = .error ⟨t⟩ ∧
        getOneCore (.resp r) = .error ⟨t⟩) ∧
    (∀ e es, objGet r.body "errors" = .varr (e :: es) →
      (optChain e "detail").truthy = false →
      (optChain e "title").truthy = false →
      jsonApiHttpClient (.resp r)
          = .error ⟨syntheticHttpMessage r.status r.statusText⟩ ∧
        getOneCore (.resp r)
          = .error ⟨syntheticHttpMessage r.status r.statusText⟩) ∧
    (objGet r.body "errors" = .undef →
      jsonApiHttpClient (.resp r)
          = .error ⟨syntheticHttpMessage r.status r.statusText⟩ ∧
        getOneCore (.resp r)
          = .error ⟨syntheticHttpMessage r.status r.statusText⟩) := by
  have hclient : jsonApiHttpClient (.resp r)
      = .error ⟨clientErrorMessage r.status r.statusText r.body⟩ := by
    simp [jsonApiHttpClient, hok]
  have hone : ∀ m : String, clientErrorMessage r.status r.statusText r.body = m →
      jsonApiHttpClient (.resp r) = .error ⟨m⟩ ∧ getOneCore (.resp r) = .error ⟨m⟩ := by
    intro m hm
    rw [hm] at hclient
    exact ⟨hclient, by simp [getOneCore, hclient]⟩
  refine ⟨?_, ?_, ?_, ?_⟩
  · intro e es d herr hdet hd
    refine hone d ?_
    unfold clientErrorMessage
    rw [herr]
    have hz : indexZero (.varr (e :: es)) = e := rfl
    rw [hz, hdet]
    have : (Value.vstr d).truthy = true := by
      simp [Value.truthy, bne_iff_ne, hd]
    rw [this]
    simp [jsToString]
  · intro e es t herr hdet htit ht
    refine hone t ?_
    unfold clientErrorMessage
    rw [herr]
    have hz : indexZero (.varr (e :: es)) = e := rfl
    rw [hz, hdet, htit]
    have : (Value.vstr t).truthy = true := by
      simp [Value.truthy, bne_iff_ne, ht]
    rw [this]
    simp [jsToString]
  · intro e es herr hdet htit
    refine hone _ ?_
    unfold clientErrorMessage
    rw [herr]
    have hz : indexZero (.varr (e :: es)) = e := rfl
    rw [hz, hdet, htit]
    simp
  · intro herr
    refine hone _ ?_
    unfold clientErrorMessage
    rw [herr]
    rfl

/-- The 404 response of the C5 witness:
`{ errors: [{ detail: "Not found" }] }`. -/
def c5Response : HttpResponse :=
  ⟨false, 404, "Not Found",
    [("errors", Value.varr [Value.vobj [("detail", Value.vstr "Not found")]])]⟩

/-- Witness for C5: the 404 error envelope with first detail
`"Not found"` makes `getOne` raise with exactly that message. -/
theorem httpClient_error_normalization_witness :
    c5Response.ok = false ∧
    objGet c5Response.body "errors"
      = .varr [Value.vobj [("detail", Value.vstr "Not found")]] ∧
    getOneCore (.resp c5Response) = .error ⟨"Not found"⟩ :=
  ⟨rfl, rfl,
    ((httpClient_error_normalization c5Response rfl).1
      (Value.vobj [("detail", Value.vstr "Not found")]) [] "Not found"
      rfl rfl (by decide)).2⟩

/-! ### Filter encoding (C8) -/

theorem string_of_data_eq (a b : String) (h : a.data = b.data) : a = b := by
  cases a; cases b; exact congrArg String.mk h

theorem filter_param_name_inj (k k' : String)
    (h : ("filter[" ++ k ++ "]" : String) = "filter[" ++ k' ++ "]") : k = k' := by
  have hd := congrArg String.data h
  rw [string_data_append, string_data_append, string_data_append,
    string_data_append] at hd
  have h2 := List.append_cancel_right hd
  have h3 := List.append_cancel_left h2
  exact string_of_data_eq _ _ h3

theorem filter_param_name_data (k : String) :
    ("filter[" ++ k ++ "]" : String).data
      = 'f' :: (("ilter[" : String).data ++ k.data ++ ("]" : String).data) := by
  rw [string_data_append, string_data_append]
  have hf : ("filter[" : String).data = 'f' :: ("ilter[" : String).data := rfl
  rw [hf]
  simp [List.cons_append, List.append_assoc]

theorem filter_param_ne_pageNumber (k : String) :
    ("filter[" ++ k ++ "]" : String) ≠ "page[number]" := by
  intro h
  have hd := congrArg String.data h
  rw [filter_param_name_data] at hd
  have hp : ("page[number]" : String).data = 'p' :: ("age[number]" : String).data := rfl
  rw [hp] at hd
  injection hd with h1 _
  exact absurd h1 (by decide)

theorem filter_param_ne_pageSize (k : String) :
    ("filter[" ++ k ++ "]" : String) ≠ "page[size]" := by
  intro h
  have hd := congrArg String.data h
  rw [filter_param_name_data] at hd
  have hp : ("page[size]" : String).data = 'p' :: ("age[size]" : String).data := rfl
  rw [hp] at hd
  injection hd with h1 _
  exact absurd h1 (by decide)

theorem filter_param_ne_sort (k : String) :
    ("filter[" ++ k ++ "]" : String) ≠ "sort" := by
  intro h
  have hd := congrArg String.data h
  rw [filter_param_name_data] at hd
  have hp : ("sort" : String).data = 's' :: ("ort" : String).data := rfl
  rw [hp] at hd
  injection hd with h1 _
  exact absurd h1 (by decide)

theorem nodup_key_val_unique (l : JsObj) (hnd : (l.map Prod.fst).Nodup)
    (k : String) (v v' : Value) (h1 : (k, v) ∈ l) (h2 : (k, v') ∈ l) : v = v' := by
  induction l with
  | nil => cases h1
  | cons kv t ih =>
    rw [List.map_cons, List.nodup_cons] at hnd
    rcases List.mem_cons.mp h1 with e1 | m1
    · rcases List.mem_cons.mp h2 with e2 | m2
      · rw [← e1] at e2
        exact (Prod.mk.injEq _ _ _ _ ▸ e2.symm).2
      · exfalso
        apply hnd.1
        rw [← e1]
        show k ∈ List.map Prod.fst t
        exact List.mem_map_of_mem Prod.fst m2
    · rcases List.mem_cons.mp h2 with e2 | m2
      · exfalso
        apply hnd.1
        rw [← e2]
        show k ∈ List.map Prod.fst t
        exact List.mem_map_of_mem Prod.fst m1
      · exact ih hnd.2 m1 m2

/-- Helper: in the query `getList` emits, a filter entry whose value is
`undefined`, `null` or `""` never appears, and every other entry appears
as a `filter[key]=value.toString()` parameter. -/
theorem getList_filter_param_encoding (page perPage : Int) (field order : String)
    (filters : JsObj) (hnd : (filters.map Prod.fst).Nodup)
    (k : String) (v : Value) (hmem : (k, v) ∈ filters) :
    (keptFilterValue v = false →
      ∀ s, ("filter[" ++ k ++ "]", s) ∉ getListQuery page perPage field order filters) ∧
    (keptFilterValue v = true →
      ("filter[" ++ k ++ "]", jsToString v)
        ∈ getListQuery page perPage field order filters) := by
  constructor
  · intro hdrop s hin
    unfold getListQuery at hin
    rcases List.mem_append.mp hin with h1 | h2
    · rcases List.mem_append.mp h1 with hp | hs
      · unfold pageParams at hp
        rcases List.mem_cons.mp hp with e | e2
        · exact filter_param_ne_pageNumber k (congrArg Prod.fst e)
        · rcases List.mem_cons.mp e2 with e | e3
          · exact filter_param_ne_pageSize k (congrArg Prod.fst e)
          · exact List.not_mem_nil _ e3
      · exact filter_param_ne_sort k (congrArg Prod.fst (List.mem_singleton.mp hs))
    · obtain ⟨⟨k', v'⟩, hmem', heq⟩ := List.mem_filterMap.mp h2
      by_cases hkept : keptFilterValue v'
      · rw [if_pos hkept] at heq
        have hk : k' = k :=
          filter_param_name_inj k' k (congrArg Prod.fst (Option.some.inj heq))
        subst hk
        have hv : v = v' := nodup_key_val_unique filters hnd k' v v' hmem hmem'
        rw [← hv] at hkept
        rw [hdrop] at hkept
        exact Bool.false_ne_true hkept
      · rw [if_neg hkept] at heq
        cases heq
  · intro hkeep
    unfold getListQuery
    refine List.mem_append_right _ ?_
    exact List.mem_filterMap.mpr ⟨(k, v), hmem, by rw [if_pos hkeep]⟩

/-- Counterexample to C8 as stated: `getManyReference` with target
`post_id` and id `5`, given the extra filter mapping `{ post_id: null }`,
emits `filter[post_id]=5` — the target parameter is appended before (and
regardless of) the filter loop, so the key of a null-valued filter entry
does appear in the emitted query. -/
theorem filter_param_encoding_counterexample :
    ("post_id", Value.vnull) ∈ ([("post_id", Value.vnull)] : JsObj) ∧
    keptFilterValue Value.vnull = false ∧
    ("filter[" ++ "post_id" ++ "]", "5")
      ∈ getManyReferenceQuery 1 10 "id" "ASC" "post_id" (Value.vnum 5)
          [("post_id", Value.vnull)] := by
  refine ⟨List.mem_singleton.mpr rfl, rfl, ?_⟩
  unfold getManyReferenceQuery
  exact List.mem_append_left _
    (List.mem_append_right _ (List.mem_singleton.mpr rfl))

/-- C8 as amended: in the query `getList` emits, a filter entry with value
`undefined`/`null`/`""` never appears and every other entry appears as
`filter[key]=value`; the same holds for `getManyReference` for keys
distinct from the target field, whose parameter `filter[target]=id` is
always appended — even when the extra filter mapping carries the target
key with a dropped value. -/
theorem filter_param_encoding_amended (page perPage : Int) (field order : String)
    (target : String) (idv : Value) (filters : JsObj)
    (hnd : (filters.map Prod.fst).Nodup)
    (k : String) (v : Value) (hmem : (k, v) ∈ filters) :
    (keptFilterValue v = false →
      ∀ s, ("filter[" ++ k ++ "]", s)
        ∉ getListQuery page perPage field order filters) ∧
    (keptFilterValue v = true →
      ("filter[" ++ k ++ "]", jsToString v)
        ∈ getListQuery page perPage field order filters) ∧
    (keptFilterValue v = false → k ≠ target →
      ∀ s, ("filter[" ++ k ++ "]", s)
        ∉ getManyReferenceQuery page perPage field order target idv filters) ∧
    (keptFilterValue v = true →
      ("filter[" ++ k ++ "]", jsToString v)
        ∈ getManyReferenceQuery page perPage field order target idv filters) ∧
    ("filter[" ++ target ++ "]", jsToString idv)
      ∈ getManyReferenceQuery page perPage field order target idv filters := by
  obtain ⟨hdrop, hkeep⟩ :=
    getList_filter_param_encoding page perPage field order filters hnd k v hmem
  refine ⟨hdrop, hkeep, ?_, ?_, ?_⟩
  · intro hd hkt s hin
    unfold getManyReferenceQuery at hin
    rcases List.mem_append.mp hin with h1 | h2
    · rcases List.mem_append.mp h1 with h3 | h4
      · exact hdrop hd s
          (show ("filter[" ++ k ++ "]", s) ∈ getListQuery page perPage field order filters
            from List.mem_append_left _ h3)
      · exact hkt (filter_param_name_inj k target
          (congrArg Prod.fst (List.mem_singleton.mp h4)))
    · exact hdrop hd s
        (show ("filter[" ++ k ++ "]", s) ∈ getListQuery page perPage field order filters
          from List.mem_append_right _ h2)
  · intro hk
    unfold getManyReferenceQuery
    exact List.mem_append_right _
      (List.mem_filterMap.mpr ⟨(k, v), hmem, by rw [if_pos hk]⟩)
  · unfold getManyReferenceQuery
    exact List.mem_append_left _
      (List.mem_append_right _ (List.mem_singleton.mpr rfl))

/-- The extra filter mapping `{ q: "hong", status: null }` of the C8
witness, used with target `post_id` and id `5`. -/
def c8RefFilters : JsObj := [("q", Value.vstr "hong"), ("status", Value.vnull)]

/-- Witness for the amended C8: the truthy entry `q` appears in both
queries, the null entry `status` (distinct from the target) never appears
in the `getManyReference` query, and `filter[post_id]=5` does. -/
theorem filter_param_encoding_amended_witness :
    ("q", Value.vstr "hong") ∈ c8RefFilters ∧
    keptFilterValue (Value.vstr "hong") = true ∧
    ("filter[" ++ "q" ++ "]", jsToString (Value.vstr "hong"))
      ∈ getListQuery 1 10 "id" "ASC" c8RefFilters ∧
    ("filter[" ++ "q" ++ "]", jsToString (Value.vstr "hong"))
      ∈ getManyReferenceQuery 1 10 "id" "ASC" "post_id" (Value.vnum 5) c8RefFilters ∧
    ("status", Value.vnull) ∈ c8RefFilters ∧
    keptFilterValue Value.vnull = false ∧
    ("status" : String) ≠ "post_id" ∧
    (∀ s, ("filter[" ++ "status" ++ "]", s)
      ∉ getManyReferenceQuery 1 10 "id" "ASC" "post_id" (Value.vnum 5) c8RefFilters) ∧
    ("filter[" ++ "post_id" ++ "]", jsToString (Value.vnum 5))
      ∈ getManyReferenceQuery 1 10 "id" "ASC" "post_id" (Value.vnum 5) c8RefFilters := by
  have hnd : (c8RefFilters.map Prod.fst).Nodup := by decide
  have hq := filter_param_encoding_amended 1 10 "id" "ASC" "post_id" (Value.vnum 5)
    c8RefFilters hnd "q" (Value.vstr "hong") (List.mem_cons_self _ _)
  have hst := filter_param_encoding_amended 1 10 "id" "ASC" "post_id" (Value.vnum 5)
    c8RefFilters hnd "status" Value.vnull
    (List.mem_cons_of_mem _ (List.mem_cons_self _ _))
  exact ⟨List.mem_cons_self _ _, rfl, hq.2.1 rfl, hq.2.2.2.1 rfl,
    List.mem_cons_of_mem _ (List.mem_cons_self _ _), rfl, by decide,
    hst.2.2.1 rfl (by decide), hq.2.2.2.2⟩

/-! ### Reported total of the list reads (C2) -/

/-- The envelope `{ data: [one resource], meta: { total: 0 } }` of the C2
counterexample: `meta.total` is present (with value `0`), yet the code's
`json.meta?.total || json.meta?.count || data.length` chain skips the
falsy `0` and reports the data length `1`. -/
def c2Body : JsObj :=
  [("data", Value.varr [Value.vobj [("type", .vstr "users"), ("id", .vstr "1"),
      ("attributes", Value.vobj [])]]),
   ("meta", Value.vobj [("total", Value.vnum 0)])]

/-- Counterexample to C2 as stated: for the success envelope `c2Body` the
`meta` object carries `total: 0` (the field is present), but `getList`
reports total `1` — the data length — not the present `total`. -/
theorem getList_total_counterexample :
    optChain (objGet c2Body "meta") "total" = Value.vnum 0 ∧
    (getListCore (.resp ⟨true, 200, "OK", c2Body⟩)).total = Value.vnum 1 := by
  constructor
  · rfl
  · rfl

/-- C2 as amended: for a success envelope whose resources all transform,
the reported total is the envelope's `meta.total` when that value is
truthy (present and non-zero), else `meta.count` when truthy, else the
length of the array-coerced `data`.  (As stated the claim fails when the
present `total` is `0`, because the code selects with JavaScript `||`.) -/
theorem getList_total_amended (r : HttpResponse) (hok : r.ok = true)
    (recs : List JsObj)
    (hrecs : (coerceDataArray (objGet r.body "data")).mapM transformJsonApiResource
      = .ok recs) :
    ((optChain (objGet r.body "meta") "total").truthy = true →
      (getListCore (.resp r)).total = optChain (objGet r.body "meta") "total") ∧
    ((optChain (objGet r.body "meta") "total").truthy = false →
      (optChain (objGet r.body "meta") "count").truthy = true →
      (getListCore (.resp r)).total = optChain (objGet r.body "meta") "count") ∧
    ((optChain (objGet r.body "meta") "total").truthy = false →
      (optChain (objGet r.body "meta") "count").truthy = false →
      (getListCore (.resp r)).total
        = .vnum (coerceDataArray (objGet r.body "data")).length) := by
  have hclient : jsonApiHttpClient (.resp r) = .ok r.body := by
    simp [jsonApiHttpClient, hok]
  have hcore : getListCore (.resp r)
      = ⟨recs,
          jsOr (optChain (objGet r.body "meta") "total")
            (jsOr (optChain (objGet r.body "meta") "count")
              (.vnum (coerceDataArray (objGet r.body "data")).length))⟩ := by
    simp only [getListCore, hclient, listTransformBody]
    rw [hrecs]
  refine ⟨?_, ?_, ?_⟩
  · intro ht
    rw [hcore]
    simp [jsOr, ht]
  · intro ht hc
    rw [hcore]
    simp [jsOr, ht, hc]
  · intro ht hc
    rw [hcore]
    simp [jsOr, ht, hc]

/-- The spec's own example for the C2 witness: a success envelope with
`meta.total = 37` and a single item in `data`. -/
def c2WitnessBody : JsObj :=
  [("data", Value.varr [Value.vobj [("type", .vstr "users"), ("id", .vstr "1"),
      ("attributes", Value.vobj [])]]),
   ("meta", Value.vobj [("total", Value.vnum 37)])]

/-- Witness for the amended C2: with `meta.total = 37` and one data item,
`getList` reports total 37 — not the array length. -/
theorem getList_total_amended_witness :
    (HttpResponse.mk true 200 "OK" c2WitnessBody).ok = true ∧
    (coerceDataArray (objGet c2WitnessBody "data")).mapM transformJsonApiResource
      = .ok [flattenResource (Value.vobj [("type", .vstr "users"), ("id", .vstr "1"),
          ("attributes", Value.vobj [])])] ∧
    (optChain (objGet c2WitnessBody "meta") "total").truthy = true ∧
    (getListCore (.resp ⟨true, 200, "OK", c2WitnessBody⟩)).total = Value.vnum 37 :=
  ⟨rfl, rfl, rfl,
    ((getList_total_amended ⟨true, 200, "OK", c2WitnessBody⟩ rfl
        [flattenResource (Value.vobj [("type", .vstr "users"), ("id", .vstr "1"),
          ("attributes", Value.vobj [])])] rfl).1 rfl :)⟩

/-! ### Characterization of the built wire resource (C7, C1) -/

theorem jsGet_vobj (o : JsObj) (k : String) : jsGet (.vobj o) k = objGet o k := rfl

theorem spreadVal_vobj (o : JsObj) : spreadVal (.vobj o) = o := rfl

theorem notReservedKey_id (v : Value) : notReservedKey ("id", v) = false := rfl

theorem notReservedKey_rel (v : Value) :
    notReservedKey ("relationships", v) = false := rfl

theorem notReservedKey_meta (v : Value) : notReservedKey ("meta", v) = false := rfl

theorem notReservedKey_other (k : String) (v : Value) (h1 : k ≠ "id")
    (h2 : k ≠ "relationships") (h3 : k ≠ "meta") : notReservedKey (k, v) = true := by
  simp [notReservedKey, bne_iff_ne, h1, h2, h3]

theorem keyIn_guard (c : Bool) (k0 : String) (w : Value) (k : String) (h : k0 ≠ k) :
    keyIn (if c then [(k0, w)] else []) k = false := by
  cases c <;> simp [keyIn, h]

theorem toInner_attributes (ty : String) (data : JsObj) (id : Option String) :
    objGet (toJsonApiInner ty data id) "attributes"
      = Value.vobj (data.filter notReservedKey) := by
  unfold toJsonApiInner
  rcases id with _ | s
  · cases hr : (objGet data "relationships").truthy <;>
      cases hm : (objGet data "meta").truthy <;> rfl
  · simp only [idPart]
    by_cases hs : s = ""
    · subst hs
      cases hr : (objGet data "relationships").truthy <;>
        cases hm : (objGet data "meta").truthy <;> rfl
    · rw [bne_iff_ne.mpr hs]
      cases hr : (objGet data "relationships").truthy <;>
        cases hm : (objGet data "meta").truthy <;> rfl

theorem toInner_relationships (ty : String) (data : JsObj) (id : Option String) :
    objGet (toJsonApiInner ty data id) "relationships"
      = (if (objGet data "relationships").truthy then objGet data "relationships"
         else .undef) := by
  unfold toJsonApiInner
  rcases id with _ | s
  · cases hr : (objGet data "relationships").truthy <;>
      cases hm : (objGet data "meta").truthy <;> rfl
  · simp only [idPart]
    by_cases hs : s = ""
    · subst hs
      cases hr : (objGet data "relationships").truthy <;>
        cases hm : (objGet data "meta").truthy <;> rfl
    · rw [bne_iff_ne.mpr hs]
      cases hr : (objGet data "relationships").truthy <;>
        cases hm : (objGet data "meta").truthy <;> rfl

theorem toInner_meta (ty : String) (data : JsObj) (id : Option String) :
    objGet (toJsonApiInner ty data id) "meta"
      = (if (objGet data "meta").truthy then objGet data "meta" else .undef) := by
  unfold toJsonApiInner
  rcases id with _ | s
  · cases hr : (objGet data "relationships").truthy <;>
      cases hm : (objGet data "meta").truthy <;> rfl
  · simp only [idPart]
    by_cases hs : s = ""
    · subst hs
      cases hr : (objGet data "relationships").truthy <;>
        cases hm : (objGet data "meta").truthy <;> rfl
    · rw [bne_iff_ne.mpr hs]
      cases hr : (objGet data "relationships").truthy <;>
        cases hm : (objGet data "meta").truthy <;> rfl

theorem toInner_id (ty : String) (data : JsObj) (s : String) (hs : s ≠ "") :
    objGet (toJsonApiInner ty data (some s)) "id" = .vstr s := by
  unfold toJsonApiInner
  simp only [idPart]
  rw [bne_iff_ne.mpr hs]
  cases hr : (objGet data "relationships").truthy <;>
    cases hm : (objGet data "meta").truthy <;> rfl

theorem toInner_id_create (ty : String) (data : JsObj) :
    keyIn (toJsonApiInner ty data none) "id" = false := by
  unfold toJsonApiInner
  cases hr : (objGet data "relationships").truthy <;>
    cases hm : (objGet data "meta").truthy <;> rfl

/-! ### The round-trip law (C1) -/

/-- Extensional equality of JavaScript objects: the same own keys and the
same value at every key. -/
def objEqv (a b : JsObj) : Prop :=
  ∀ k, keyIn a k = keyIn b k ∧ objGet a k = objGet b k

theorem keyIn_guard_self (c : Bool) (k0 : String) (w : Value) :
    keyIn (if c then [(k0, w)] else []) k0 = c := by
  cases c <;> simp [keyIn]

theorem objGet_guard_self (c : Bool) (k0 : String) (w : Value) :
    objGet (if c then [(k0, w)] else []) k0 = if c then w else .undef := by
  cases c <;> simp [objGet]

theorem keyIn_of_objGet_vstr (o : JsObj) (k : String) (s : String)
    (h : objGet o k = .vstr s) : keyIn o k = true := by
  cases hc : keyIn o k with
  | false => rw [objGet_of_not_keyIn o k hc] at h; exact Value.noConfusion h
  | true => rfl

theorem truthy_undef : Value.undef.truthy = false := rfl

/-- The flattened form of the wire resource built from a record `r` with a
non-empty id string `s`: the reserved keys come back at the top level, the
remaining entries return via the `attributes` spread. -/
theorem flatten_toInner (ty : String) (r : JsObj) (s : String) (hs : s ≠ "") :
    flattenResource (.vobj (toJsonApiInner ty r (some s)))
      = ("id", Value.vstr s) :: (r.filter notReservedKey)
        ++ (if (objGet r "relationships").truthy
            then [("relationships", objGet r "relationships")] else [])
        ++ (if (objGet r "meta").truthy
            then [("meta", objGet r "meta")] else []) := by
  unfold flattenResource
  simp only [jsGet_vobj]
  rw [toInner_id ty r s hs, toInner_attributes, toInner_relationships, toInner_meta,
    spreadVal_vobj]
  cases hr : (objGet r "relationships").truthy <;>
    cases hm : (objGet r "meta").truthy <;> simp [hr, hm, truthy_undef]

/-- Key membership of the flattened round-trip object, unfolded over its
four parts. -/
theorem flat_keyIn (r : JsObj) (s : String) (k : String) :
    keyIn ((("id", Value.vstr s) :: r.filter notReservedKey
        ++ (if (objGet r "relationships").truthy
            then [("relationships", objGet r "relationships")] else []))
        ++ (if (objGet r "meta").truthy then [("meta", objGet r "meta")] else [])) k
      = (((decide ("id" = k) || keyIn (r.filter notReservedKey) k)
          || keyIn (if (objGet r "relationships").truthy
              then [("relationships", objGet r "relationships")] else []) k)
        || keyIn (if (objGet r "meta").truthy
            then [("meta", objGet r "meta")] else []) k) := by
  rw [keyIn_append, keyIn_append, keyIn_cons]

/-- Property read of the flattened round-trip object, unfolded over its
four parts. -/
theorem flat_objGet (r : JsObj) (s : String) (k : String) :
    objGet ((("id", Value.vstr s) :: r.filter notReservedKey
        ++ (if (objGet r "relationships").truthy
            then [("relationships", objGet r "relationships")] else []))
        ++ (if (objGet r "meta").truthy then [("meta", objGet r "meta")] else [])) k
      = if keyIn (if (objGet r "meta").truthy
            then [("meta", objGet r "meta")] else []) k then
          objGet (if (objGet r "meta").truthy
            then [("meta", objGet r "meta")] else []) k
        else if keyIn (if (objGet r "relationships").truthy
            then [("relationships", objGet r "relationships")] else []) k then
          objGet (if (objGet r "relationships").truthy
            then [("relationships", objGet r "relationships")] else []) k
        else if keyIn (r.filter notReservedKey) k then
          objGet (r.filter notReservedKey) k
        else if "id" = k then Value.vstr s else .undef := by
  rw [objGet_append, objGet_append, objGet_cons]

/-- C1 as amended: the round trip restores the record provided the
record's id is a non-empty string and its `relationships`/`meta` values
are truthy when those keys are present (the nested sub-mappings of the
spec's data model are always truthy).  Equality is extensional equality of
JavaScript objects. -/
theorem roundtrip_amended (ty : String) (r : JsObj) (s : String)
    (htype : keyIn r "type" = false)
    (hid : objGet r "id" = .vstr s) (hs : s ≠ "")
    (hrel : keyIn r "relationships" = true → (objGet r "relationships").truthy = true)
    (hmeta : keyIn r "meta" = true → (objGet r "meta").truthy = true) :
    objEqv r (flattenResource (.vobj (toJsonApiInner ty r (some s)))) := by
  unfold objEqv
  intro k
  rw [flatten_toInner ty r s hs, flat_keyIn r s k, flat_objGet r s k]
  have hAid : keyIn (r.filter notReservedKey) "id" = false :=
    keyIn_filter_drop r notReservedKey "id" notReservedKey_id
  have hArel : keyIn (r.filter notReservedKey) "relationships" = false :=
    keyIn_filter_drop r notReservedKey "relationships" notReservedKey_rel
  have hAmeta : keyIn (r.filter notReservedKey) "meta" = false :=
    keyIn_filter_drop r notReservedKey "meta" notReservedKey_meta
  by_cases hk1 : k = "id"
  · subst hk1
    have hkr : keyIn r "id" = true := keyIn_of_objGet_vstr r "id" s hid
    have hG1 : keyIn (if (objGet r "relationships").truthy
        then [("relationships", objGet r "relationships")] else []) "id" = false :=
      keyIn_guard _ _ _ _ (by decide)
    have hG2 : keyIn (if (objGet r "meta").truthy
        then [("meta", objGet r "meta")] else []) "id" = false :=
      keyIn_guard _ _ _ _ (by decide)
    rw [hkr, hAid, hG1, hG2, hid]
    simp
  · by_cases hk2 : k = "relationships"
    · subst hk2
      have hG2 : keyIn (if (objGet r "meta").truthy
          then [("meta", objGet r "meta")] else []) "relationships" = false :=
        keyIn_guard _ _ _ _ (by decide)
      rw [hArel, hG2, keyIn_guard_self, objGet_guard_self]
      cases hc : (objGet r "relationships").truthy with
      | true =>
        have hkr : keyIn r "relationships" = true := by
          cases hcc : keyIn r "relationships" with
          | false =>
            rw [objGet_of_not_keyIn r "relationships" hcc] at hc
            exact Bool.noConfusion hc
          | true => rfl
        rw [hkr]
        simp
      | false =>
        have hkr : keyIn r "relationships" = false := by
          cases hcc : keyIn r "relationships" with
          | true => rw [hrel hcc] at hc; exact Bool.noConfusion hc
          | false => rfl
        rw [hkr, objGet_of_not_keyIn r "relationships" hkr]
        simp [show ("id" : String) ≠ "relationships" from by decide]
    · by_cases hk3 : k = "meta"
      · subst hk3
        have hG1 : keyIn (if (objGet r "relationships").truthy
            then [("relationships", objGet r "relationships")] else []) "meta"
            = false := keyIn_guard _ _ _ _ (by decide)
        rw [hAmeta, hG1, keyIn_guard_self, objGet_guard_self]
        cases hc : (objGet r "meta").truthy with
        | true =>
          have hkr : keyIn r "meta" = true := by
            cases hcc : keyIn r "meta" with
            | false =>
              rw [objGet_of_not_keyIn r "meta" hcc] at hc
              exact Bool.noConfusion hc
            | true => rfl
          rw [hkr]
          simp
        | false =>
          have hkr : keyIn r "meta" = false := by
            cases hcc : keyIn r "meta" with
            | true => rw [hmeta hcc] at hc; exact Bool.noConfusion hc
            | false => rfl
          rw [hkr, objGet_of_not_keyIn r "meta" hkr]
          simp [show ("id" : String) ≠ "meta" from by decide]
      · -- an ordinary field: it travels through `attributes` unchanged
        have hkeep : ∀ v, notReservedKey (k, v) = true := fun v =>
          notReservedKey_other k v hk1 hk2 hk3
        have hAk : keyIn (r.filter notReservedKey) k = keyIn r k :=
          keyIn_filter_keep r notReservedKey k hkeep
        have hAg : objGet (r.filter notReservedKey) k = objGet r k :=
          objGet_filter_keep r notReservedKey k hkeep
        have hG1 : keyIn (if (objGet r "relationships").truthy
            then [("relationships", objGet r "relationships")] else []) k = false :=
          keyIn_guard _ _ _ _ fun hx => hk2 hx.symm
        have hG2 : keyIn (if (objGet r "meta").truthy
            then [("meta", objGet r "meta")] else []) k = false :=
          keyIn_guard _ _ _ _ fun hx => hk3 hx.symm
        have hidk : ("id" : String) ≠ k := fun hx => hk1 hx.symm
        rw [hAk, hAg, hG1, hG2, decide_eq_false hidk]
        cases hkr : keyIn r k with
        | true => simp
        | false =>
          rw [objGet_of_not_keyIn r k hkr]
          simp [hidk]

/-- The record `{ id: "1", name: "Hong", meta: null }` of the C1
counterexample: its only reserved keys are `id` and `meta`, yet the round
trip loses the `meta` key because `...(data.meta && { meta })` drops a
falsy value. -/
def c1Record : JsObj :=
  [("id", Value.vstr "1"), ("name", Value.vstr "Hong"), ("meta", Value.vnull)]

/-- Counterexample to C1 as stated: `c1Record` has no reserved key beyond
`id`/`meta`, its id is supplied, but the record flattened back from the
built wire resource is not equal to the original (the `meta` key is
gone). -/
theorem roundtrip_counterexample :
    keyIn c1Record "type" = false ∧
    objGet c1Record "id" = Value.vstr "1" ∧
    ¬ objEqv c1Record
      (flattenResource (.vobj (toJsonApiInner "users" c1Record (some "1")))) := by
  refine ⟨rfl, rfl, ?_⟩
  intro h
  have h1 := (h "meta").1
  have h2 : keyIn c1Record "meta" = true := rfl
  have h3 : keyIn
      (flattenResource (.vobj (toJsonApiInner "users" c1Record (some "1"))))
      "meta" = false := rfl
  rw [h2, h3] at h1
  exact Bool.noConfusion h1

/-- The record of the C1 witness: non-empty string id, an ordinary field
and an object-valued (hence truthy) `relationships`. -/
def c1WitnessRecord : JsObj :=
  [("id", Value.vstr "1"), ("name", Value.vstr "Hong"),
   ("relationships", Value.vobj [("author", Value.vobj [])])]

/-- Witness for the amended C1 at `c1WitnessRecord`. -/
theorem roundtrip_amended_witness :
    keyIn c1WitnessRecord "type" = false ∧
    objGet c1WitnessRecord "id" = Value.vstr "1" ∧
    objEqv c1WitnessRecord
      (flattenResource (.vobj (toJsonApiInner "users" c1WitnessRecord (some "1")))) :=
  ⟨rfl, rfl,
    roundtrip_amended "users" c1WitnessRecord "1" rfl rfl (by decide)
      (fun _ => rfl) (fun h => Bool.noConfusion h)⟩

/-! ### The built request body (C7) -/

/-- The `attributes` member of a built wire resource, as an object. -/
def attrFields (o : JsObj) : JsObj :=
  match objGet o "attributes" with
  | .vobj a => a
  | _ => []

/-- The create payload `{ type: "smuggled", id: 5, name: "x" }` of the C7
counterexample. -/
def c7Data : JsObj :=
  [("type", Value.vstr "smuggled"), ("id", Value.vnum 5), ("name", Value.vstr "x")]

/-- Counterexample to C7 as stated: the filter excludes only
`id`/`relationships`/`meta`, so an input `type` key stays inside
`attributes`; and an `id` present in the input mapping of a create (no
separate id supplied) is dropped, not hoisted to the top level. -/
theorem request_attributes_counterexample :
    keyIn (attrFields (toJsonApiInner "posts" c7Data none)) "type" = true ∧
    keyIn c7Data "id" = true ∧
    keyIn (toJsonApiInner "posts" c7Data none) "id" = false :=
  ⟨rfl, rfl, rfl⟩

/-- C7 as amended: the built `attributes` never contains `id`,
`relationships` or `meta` (a `type` key of the input is not excluded);
`relationships` and `meta` are hoisted to top-level wire-resource fields
when present with truthy values; the top-level `id` is the separately
supplied non-empty id string — for create (no id supplied) the wire
resource carries no `id`; and the request body wraps the resource under
`data`. -/
theorem request_attributes_amended (ty : String) (data : JsObj) (id : Option String) :
    keyIn (data.filter notReservedKey) "id" = false ∧
    keyIn (data.filter notReservedKey) "relationships" = false ∧
    keyIn (data.filter notReservedKey) "meta" = false ∧
    objGet (toJsonApiInner ty data id) "attributes"
      = Value.vobj (data.filter notReservedKey) ∧
    ((objGet data "relationships").truthy = true →
      objGet (toJsonApiInner ty data id) "relationships"
        = objGet data "relationships") ∧
    ((objGet data "meta").truthy = true →
      objGet (toJsonApiInner ty data id) "meta" = objGet data "meta") ∧
    (∀ s, id = some s → s ≠ "" →
      objGet (toJsonApiInner ty data id) "id" = Value.vstr s) ∧
    keyIn (toJsonApiInner ty data none) "id" = false ∧
    objGet (transformToJsonApiResource ty data id) "data"
      = Value.vobj (toJsonApiInner ty data id) := by
  refine ⟨keyIn_filter_drop _ _ _ notReservedKey_id,
    keyIn_filter_drop _ _ _ notReservedKey_rel,
    keyIn_filter_drop _ _ _ notReservedKey_meta,
    toInner_attributes ty data id, ?_, ?_, ?_, toInner_id_create ty data, rfl⟩
  · intro h
    rw [toInner_relationships, if_pos h]
  · intro h
    rw [toInner_meta, if_pos h]
  · intro s heq hs
    rw [heq]
    exact toInner_id ty data s hs

/-- The update payload of the C7 witness. -/
def c7GoodData : JsObj :=
  [("id", Value.vnum 7), ("title", Value.vstr "hi"),
   ("relationships", Value.vobj [("author", Value.vobj [])])]

/-- Witness for the amended C7 at `c7GoodData` with supplied id `"7"`. -/
theorem request_attributes_amended_witness :
    keyIn (c7GoodData.filter notReservedKey) "id" = false ∧
    (objGet c7GoodData "relationships").truthy = true ∧
    objGet (toJsonApiInner "posts" c7GoodData (some "7")) "relationships"
      = objGet c7GoodData "relationships" ∧
    objGet (toJsonApiInner "posts" c7GoodData (some "7")) "id" = Value.vstr "7" :=
  ⟨(request_attributes_amended "posts" c7GoodData (some "7")).1, rfl,
    (request_attributes_amended "posts" c7GoodData (some "7")).2.2.2.2.1 rfl,
    (request_attributes_amended "posts" c7GoodData (some "7")).2.2.2.2.2.2.1 "7"
      rfl (by decide)⟩
